import Mathlib

/-!
Verification of the coverage-calculator core: the effective-output stage
chain (`compute_effective_output`) and the coverage solvers
(`CoverageCalculator` with its three `calc_*` methods), together with the
ddRAD post-processing of the genome-size solve.

Numeric conventions: Python floats are modelled as exact rationals (for the
solver layer) or reals (for the stage chain, which uses `math.exp`); Python
ints as `ℤ`.  Python's `/` on numbers is true division; division by zero
raises in Python, so a division-guarded `Option`-valued variant of each
operation is provided where a claim speaks about never dividing by zero.
Python type annotations are not enforced at runtime, so `samples` (annotated
`int`) is modelled as `ℚ`: the constructor accepts any number and the
round-trip property substitutes a float result for it.
-/

/-- Fields of a `CoverageCalculator` (`coverage_model.py`): stored verbatim by
`__init__` after validation. -/
structure CoverageCalculator where
  region_size_bp : ℤ
  depth : ℚ
  samples : ℚ
  output_bp : ℚ
  duplication_pct : ℚ
  on_target_pct : ℚ
  deriving DecidableEq

/-- The domain accepted by `CoverageCalculator.__init__`: every guard of the
constructor, positively stated. -/
def ValidParams (c : CoverageCalculator) : Prop :=
  0 < c.region_size_bp ∧ 0 < c.depth ∧ 0 < c.samples ∧ 0 ≤ c.output_bp ∧
    (0 ≤ c.duplication_pct ∧ c.duplication_pct < 100) ∧
    (0 < c.on_target_pct ∧ c.on_target_pct ≤ 100)

instance (c : CoverageCalculator) : Decidable (ValidParams c) := by
  unfold ValidParams; infer_instance

/-- `CoverageCalculator.__init__`: raises `ValueError` (modelled as
`Except.error` with the source's message) on the first violated guard,
otherwise stores the arguments unchanged. -/
def mkCoverageCalculator (region_size_bp : ℤ)
    (depth samples output_bp duplication_pct on_target_pct : ℚ) :
    Except String CoverageCalculator :=
  if region_size_bp ≤ 0 then .error "region_size_bp must be > 0"
  else if depth ≤ 0 then .error "depth must be > 0"
  else if samples ≤ 0 then .error "samples must be > 0"
  else if output_bp < 0 then .error "output_bp must be >= 0"
  else if ¬(0 ≤ duplication_pct ∧ duplication_pct < 100) then
    .error "duplication_pct must be in [0, 100)"
  else if ¬(0 < on_target_pct ∧ on_target_pct ≤ 100) then
    .error "on_target_pct must be in (0, 100]"
  else .ok ⟨region_size_bp, depth, samples, output_bp, duplication_pct, on_target_pct⟩

/-- `CoverageCalculator._effective_yield_fraction`: fraction of usable reads
after duplication and on-target filtering, floored at 0. -/
def effective_yield_fraction (c : CoverageCalculator) : ℚ :=
  let frac := (1 - c.duplication_pct / 100) * (c.on_target_pct / 100)
  if frac > 0 then frac else 0

/-- `CoverageCalculator.calc_samples_per_flow_cell`. -/
def calc_samples_per_flow_cell (c : CoverageCalculator) : ℚ :=
  let eff := effective_yield_fraction c
  if eff = 0 then 0
  else
    let total_required := (c.region_size_bp : ℚ) * c.depth / eff
    if total_required = 0 then 0
    else c.output_bp / total_required

/-- `CoverageCalculator.calc_depth`. -/
def calc_depth (c : CoverageCalculator) : ℚ :=
  if c.samples = 0 ∨ c.region_size_bp = 0 then 0
  else
    let eff := effective_yield_fraction c
    let per_sample_output := c.output_bp / c.samples
    per_sample_output * eff / (c.region_size_bp : ℚ)

/-- `CoverageCalculator.calc_genome_size`. -/
def calc_genome_size (c : CoverageCalculator) : ℚ :=
  if c.samples = 0 ∨ c.depth = 0 then 0
  else
    let eff := effective_yield_fraction c
    let usable_per_sample := c.output_bp / c.samples * eff
    usable_per_sample / c.depth

/-- Division that refuses a zero denominator, as Python's `/` does. -/
def qdiv? (a b : ℚ) : Option ℚ :=
  if b = 0 then none else some (a / b)

/-- `calc_samples_per_flow_cell` with every division guarded. -/
def calc_samples_per_flow_cell? (c : CoverageCalculator) : Option ℚ :=
  let eff := effective_yield_fraction c
  if eff = 0 then some 0
  else do
    let total_required ← qdiv? ((c.region_size_bp : ℚ) * c.depth) eff
    if total_required = 0 then some 0
    else qdiv? c.output_bp total_required

/-- `calc_depth` with every division guarded. -/
def calc_depth? (c : CoverageCalculator) : Option ℚ :=
  if c.samples = 0 ∨ c.region_size_bp = 0 then some 0
  else do
    let eff := effective_yield_fraction c
    let per_sample_output ← qdiv? c.output_bp c.samples
    qdiv? (per_sample_output * eff) ((c.region_size_bp : ℚ))

/-- `calc_genome_size` with every division guarded. -/
def calc_genome_size? (c : CoverageCalculator) : Option ℚ :=
  if c.samples = 0 ∨ c.depth = 0 then some 0
  else do
    let eff := effective_yield_fraction c
    let per_sample_output ← qdiv? c.output_bp c.samples
    qdiv? (per_sample_output * eff) c.depth

/-- ddRAD mode A (`main_app.py`, genome-size branch): whole-genome size from
the solved target-region size and a capture fraction in percent, the fraction
floored at 0.0001 before dividing. -/
def fraction_to_genome (target_region_bp target_fraction_pct : ℚ) : ℚ :=
  target_region_bp / max (1 / 10000) (target_fraction_pct / 100)

/-- ddRAD mode B (`main_app.py`, genome-size branch): capture fraction in
percent from the solved target-region size and a known genome size, clamped
to [0, 100], and 0 when the known genome size is not positive. -/
def genome_to_fraction (target_region_bp known_genome_bp : ℚ) : ℚ :=
  max 0 (min 100
    (if 0 < known_genome_bp then target_region_bp / known_genome_bp * 100 else 0))

noncomputable section

/-- The `EffectiveOutputStages` dataclass of `effective_output.py`. -/
structure EffectiveOutputStages where
  o0 : ℝ
  o1 : ℝ
  o2 : ℝ
  o3 : ℝ
  o4 : ℝ
  overlap_applies : Bool
  redundancy : ℝ
  eff_fraction : ℝ

/-- The O2 stage of `compute_effective_output`: fragment/read overlap.
Python's `fragment_size and read_length` is truthy exactly when both are
present (`is not None`) and nonzero, and the source additionally requires
both to be positive before testing `2 * read_length > fragment_size`.
Returns `(overlap_applies, redundancy, o2)`. -/
def o2_stage (o1 : ℝ) (apply_fragment_model : Bool)
    (fragment_size read_length : Option ℤ) : Bool × ℝ × ℝ :=
  match apply_fragment_model, fragment_size, read_length with
  | true, some f, some L =>
    if f ≠ 0 ∧ L ≠ 0 ∧ 0 < f ∧ 0 < L then
      if 2 * L > f then
        let r : ℝ := ((2 * L - f : ℤ) : ℝ) / ((2 * L : ℤ) : ℝ)
        (true, r, o1 * (1 - r))
      else (false, 0, o1)
    else (false, 0, o1)
  | _, _, _ => (false, 0, o1)

/-- `compute_effective_output` of `effective_output.py`, with floats as exact
reals. -/
def compute_effective_output (base_output_bp read_filter_loss_pct : ℝ)
    (apply_fragment_model : Bool) (fragment_size read_length : Option ℤ)
    (apply_complexity apply_gc_bias : Bool) (gc_bias_pct : ℝ)
    (region_size_bp : ℤ) (duplication_pct on_target_pct : ℝ) :
    EffectiveOutputStages :=
  let o0 : ℝ := max 0 base_output_bp
  let q : ℝ := max 0 read_filter_loss_pct
  let o1 : ℝ := o0 * (1 - q / 100)
  let s2 := o2_stage o1 apply_fragment_model fragment_size read_length
  let o2 : ℝ := s2.2.2
  let rsize : ℤ := max 1 region_size_bp
  let o3 : ℝ :=
    if apply_complexity then (rsize : ℝ) * (1 - Real.exp (-o2 / (rsize : ℝ)))
    else o2
  let o4 : ℝ :=
    if apply_gc_bias then o3 * (1 - max 0 gc_bias_pct / 100)
    else o3
  let dup : ℝ := max 0 duplication_pct
  let on_t : ℝ := max 0 on_target_pct
  let eff_fraction : ℝ := max 0 ((1 - dup / 100) * (on_t / 100))
  ⟨o0, o1, o2, o3, o4, s2.1, s2.2.1, eff_fraction⟩

open Classical in
/-- Division that refuses a zero denominator, as Python's `/` does, over the
reals of the stage chain. -/
def rdiv? (a b : ℝ) : Option ℝ :=
  if b = 0 then none else some (a / b)

/-- The O2 stage with its single division guarded. -/
def o2_stage? (o1 : ℝ) (apply_fragment_model : Bool)
    (fragment_size read_length : Option ℤ) : Option (Bool × ℝ × ℝ) :=
  match apply_fragment_model, fragment_size, read_length with
  | true, some f, some L =>
    if f ≠ 0 ∧ L ≠ 0 ∧ 0 < f ∧ 0 < L then
      if 2 * L > f then do
        let r ← rdiv? ((2 * L - f : ℤ) : ℝ) ((2 * L : ℤ) : ℝ)
        some (true, r, o1 * (1 - r))
      else some (false, 0, o1)
    else some (false, 0, o1)
  | _, _, _ => some (false, 0, o1)

/-- `compute_effective_output` with every division guarded: each `/` of the
source becomes a `rdiv?`, evaluated exactly where the source evaluates it. -/
def compute_effective_output? (base_output_bp read_filter_loss_pct : ℝ)
    (apply_fragment_model : Bool) (fragment_size read_length : Option ℤ)
    (apply_complexity apply_gc_bias : Bool) (gc_bias_pct : ℝ)
    (region_size_bp : ℤ) (duplication_pct on_target_pct : ℝ) :
    Option EffectiveOutputStages := do
  let o0 : ℝ := max 0 base_output_bp
  let q : ℝ := max 0 read_filter_loss_pct
  let q100 ← rdiv? q 100
  let o1 : ℝ := o0 * (1 - q100)
  let s2 ← o2_stage? o1 apply_fragment_model fragment_size read_length
  let o2 : ℝ := s2.2.2
  let rsize : ℤ := max 1 region_size_bp
  let o3 ←
    if apply_complexity then do
      let t ← rdiv? (-o2) ((rsize : ℤ) : ℝ)
      some ((rsize : ℝ) * (1 - Real.exp t))
    else some o2
  let o4 ←
    if apply_gc_bias then do
      let b100 ← rdiv? (max 0 gc_bias_pct) 100
      some (o3 * (1 - b100))
    else some o3
  let dup100 ← rdiv? (max 0 duplication_pct) 100
  let ont100 ← rdiv? (max 0 on_target_pct) 100
  let eff_fraction : ℝ := max 0 ((1 - dup100) * ont100)
  some ⟨o0, o1, o2, o3, o4, s2.1, s2.2.1, eff_fraction⟩

end

/-- Under the constructor's guards the effective yield fraction is the raw
product, and it is strictly positive. -/
lemma effective_yield_fraction_pos (c : CoverageCalculator) (h : ValidParams c) :
    effective_yield_fraction c =
      (1 - c.duplication_pct / 100) * (c.on_target_pct / 100) ∧
      0 < effective_yield_fraction c := by
  obtain ⟨-, -, -, -, ⟨hd0, hd1⟩, ⟨ht0, ht1⟩⟩ := h
  have hfrac : 0 < (1 - c.duplication_pct / 100) * (c.on_target_pct / 100) := by
    apply mul_pos <;> [linarith; positivity]
  constructor
  · simp [effective_yield_fraction, hfrac]
  · simp [effective_yield_fraction, hfrac]

/-- C7: `CoverageCalculator` construction fails with a descriptive error
exactly when one of the guards `region_size_bp ≤ 0`, `depth ≤ 0`,
`samples ≤ 0`, `output_bp < 0`, `duplication_pct ∉ [0,100)`,
`on_target_pct ∉ (0,100]` is violated, and otherwise succeeds storing the
arguments unchanged. -/
theorem c7_constructor_validation (region_size_bp : ℤ)
    (depth samples output_bp duplication_pct on_target_pct : ℚ) :
    ((mkCoverageCalculator region_size_bp depth samples output_bp
        duplication_pct on_target_pct).isOk = true ↔
      ValidParams ⟨region_size_bp, depth, samples, output_bp,
        duplication_pct, on_target_pct⟩) ∧
    (ValidParams ⟨region_size_bp, depth, samples, output_bp,
        duplication_pct, on_target_pct⟩ →
      mkCoverageCalculator region_size_bp depth samples output_bp
        duplication_pct on_target_pct =
        Except.ok ⟨region_size_bp, depth, samples, output_bp,
          duplication_pct, on_target_pct⟩) := by
  unfold mkCoverageCalculator ValidParams
  split_ifs with h1 h2 h3 h4 h5 h6
  · exact ⟨iff_of_false (by simp [Except.isOk, Except.toBool])
      (fun h => absurd h.1 (not_lt.mpr h1)),
      fun h => absurd h.1 (not_lt.mpr h1)⟩
  · exact ⟨iff_of_false (by simp [Except.isOk, Except.toBool])
      (fun h => absurd h.2.1 (not_lt.mpr h2)),
      fun h => absurd h.2.1 (not_lt.mpr h2)⟩
  · exact ⟨iff_of_false (by simp [Except.isOk, Except.toBool])
      (fun h => absurd h.2.2.1 (not_lt.mpr h3)),
      fun h => absurd h.2.2.1 (not_lt.mpr h3)⟩
  · exact ⟨iff_of_false (by simp [Except.isOk, Except.toBool])
      (fun h => absurd h.2.2.2.1 (not_le.mpr h4)),
      fun h => absurd h.2.2.2.1 (not_le.mpr h4)⟩
  · exact ⟨iff_of_true (by simp [Except.isOk, Except.toBool])
      ⟨not_le.mp h1, not_le.mp h2, not_le.mp h3, not_lt.mp h4, h5, h6⟩,
      fun _ => rfl⟩
  · exact ⟨iff_of_false (by simp [Except.isOk, Except.toBool])
      (fun h => absurd h.2.2.2.2.2 h6),
      fun h => absurd h.2.2.2.2.2 h6⟩
  · exact ⟨iff_of_false (by simp [Except.isOk, Except.toBool])
      (fun h => absurd h.2.2.2.2.1 h5),
      fun h => absurd h.2.2.2.2.1 h5⟩

/-- Witness for C7: a concrete in-domain argument list is accepted and
stored unchanged. -/
theorem c7_constructor_validation_witness :
    (mkCoverageCalculator 100 10 2 3000 0 100).isOk = true ∧
    mkCoverageCalculator 100 10 2 3000 0 100 =
      Except.ok ⟨100, 10, 2, 3000, 0, 100⟩ :=
  ⟨(c7_constructor_validation 100 10 2 3000 0 100).1.mpr
      (by norm_num [ValidParams]),
   (c7_constructor_validation 100 10 2 3000 0 100).2
      (by norm_num [ValidParams])⟩

/-- Under the constructor's guards the samples solver skips both 0-returns
and computes the closed formula. -/
lemma calc_samples_formula (c : CoverageCalculator) (h : ValidParams c) :
    calc_samples_per_flow_cell c =
      c.output_bp / ((c.region_size_bp : ℚ) * c.depth / effective_yield_fraction c) := by
  have heff := (effective_yield_fraction_pos c h).2
  have hrq : (0 : ℚ) < (c.region_size_bp : ℚ) := by exact_mod_cast h.1
  have hT : (0 : ℚ) < (c.region_size_bp : ℚ) * c.depth / effective_yield_fraction c :=
    div_pos (mul_pos hrq h.2.1) heff
  simp [calc_samples_per_flow_cell, heff.ne', hT.ne']

/-- Under the constructor's guards the depth solver skips its 0-return and
computes the closed formula. -/
lemma calc_depth_formula (c : CoverageCalculator) (h : ValidParams c) :
    calc_depth c =
      c.output_bp / c.samples * effective_yield_fraction c / (c.region_size_bp : ℚ) := by
  have hguard : ¬(c.samples = 0 ∨ c.region_size_bp = 0) := by
    push_neg
    exact ⟨ne_of_gt h.2.2.1, ne_of_gt h.1⟩
  simp [calc_depth, hguard]

/-- Under the constructor's guards the genome-size solver skips its 0-return
and computes the closed formula. -/
lemma calc_genome_size_formula (c : CoverageCalculator) (h : ValidParams c) :
    calc_genome_size c =
      c.output_bp / c.samples * effective_yield_fraction c / c.depth := by
  have hguard : ¬(c.samples = 0 ∨ c.depth = 0) := by
    push_neg
    exact ⟨ne_of_gt h.2.2.1, ne_of_gt h.2.1⟩
  simp [calc_genome_size, hguard]

/-- A product with a strictly positive factor vanishes or is positive
exactly with the other factor. -/
lemma mul_pos_factor_char (a k : ℚ) (hk : 0 < k) :
    (a * k = 0 ↔ a = 0) ∧ (0 < a * k ↔ 0 < a) := by
  refine ⟨by simp [mul_eq_zero, hk.ne'], ?_, ?_⟩
  · intro hak
    rcases mul_pos_iff.mp hak with ⟨ha, -⟩ | ⟨-, hk'⟩
    · exact ha
    · exact absurd hk' hk.asymm
  · exact fun ha => mul_pos ha hk

/-- Under the constructor's guards the division-guarded samples solver never
hits a zero denominator. -/
lemma calc_samples_checked (c : CoverageCalculator) (h : ValidParams c) :
    calc_samples_per_flow_cell? c = some (calc_samples_per_flow_cell c) := by
  have heff := (effective_yield_fraction_pos c h).2
  have hrq : (0 : ℚ) < (c.region_size_bp : ℚ) := by exact_mod_cast h.1
  have hT : (0 : ℚ) < (c.region_size_bp : ℚ) * c.depth / effective_yield_fraction c :=
    div_pos (mul_pos hrq h.2.1) heff
  simp [calc_samples_per_flow_cell?, calc_samples_per_flow_cell, qdiv?,
    heff.ne', hT.ne']

/-- Under the constructor's guards the division-guarded depth solver never
hits a zero denominator. -/
lemma calc_depth_checked (c : CoverageCalculator) (h : ValidParams c) :
    calc_depth? c = some (calc_depth c) := by
  have hguard : ¬(c.samples = 0 ∨ c.region_size_bp = 0) := by
    push_neg
    exact ⟨ne_of_gt h.2.2.1, ne_of_gt h.1⟩
  have hrq : ((c.region_size_bp : ℚ)) ≠ 0 := by
    exact_mod_cast (ne_of_gt h.1)
  simp [calc_depth?, calc_depth, qdiv?, hguard, ne_of_gt h.2.2.1,
    ne_of_gt h.1, hrq]

/-- Under the constructor's guards the division-guarded genome-size solver
never hits a zero denominator. -/
lemma calc_genome_size_checked (c : CoverageCalculator) (h : ValidParams c) :
    calc_genome_size? c = some (calc_genome_size c) := by
  have hguard : ¬(c.samples = 0 ∨ c.depth = 0) := by
    push_neg
    exact ⟨ne_of_gt h.2.2.1, ne_of_gt h.2.1⟩
  simp [calc_genome_size?, calc_genome_size, qdiv?, hguard,
    ne_of_gt h.2.2.1, ne_of_gt h.2.1]

/-- C1: for a validly constructed calculator, `calc_samples_per_flow_cell`
returns `output_bp / (region_size_bp * depth / eff_fraction)`, and the method
returns 0 (raising nothing) whenever the effective yield fraction is 0 or the
denominator `region_size_bp * depth / eff_fraction` is 0. -/
theorem c1_samples_per_flow_cell (c : CoverageCalculator) :
    (ValidParams c → calc_samples_per_flow_cell c =
      c.output_bp / ((c.region_size_bp : ℚ) * c.depth / effective_yield_fraction c)) ∧
    (effective_yield_fraction c = 0 → calc_samples_per_flow_cell c = 0) ∧
    ((c.region_size_bp : ℚ) * c.depth / effective_yield_fraction c = 0 →
      calc_samples_per_flow_cell c = 0) := by
  refine ⟨?_, ?_, ?_⟩
  · intro h
    have heff := (effective_yield_fraction_pos c h).2
    have hne : effective_yield_fraction c ≠ 0 := ne_of_gt heff
    obtain ⟨hr, hd, -⟩ := h
    have hrd : 0 < (c.region_size_bp : ℚ) * c.depth :=
      mul_pos (by exact_mod_cast hr) hd
    have htot : (c.region_size_bp : ℚ) * c.depth / effective_yield_fraction c ≠ 0 :=
      ne_of_gt (div_pos hrd heff)
    simp [calc_samples_per_flow_cell, hne, htot]
  · intro h
    simp [calc_samples_per_flow_cell, h]
  · intro h
    by_cases he : effective_yield_fraction c = 0
    · simp [calc_samples_per_flow_cell, he]
    · simp [calc_samples_per_flow_cell, he, h]

/-- Witness for C1 at concrete inputs: a valid calculator hits the closed
formula, and degenerate field combinations hit the 0 branches. -/
theorem c1_samples_per_flow_cell_witness :
    calc_samples_per_flow_cell ⟨100, 10, 2, 3000, 0, 100⟩ =
      (3000 : ℚ) / (((100 : ℤ) : ℚ) * 10 /
        effective_yield_fraction ⟨100, 10, 2, 3000, 0, 100⟩) ∧
    calc_samples_per_flow_cell ⟨100, 10, 2, 3000, 99, 0⟩ = 0 ∧
    calc_samples_per_flow_cell ⟨0, 10, 2, 3000, 0, 100⟩ = 0 :=
  ⟨(c1_samples_per_flow_cell _).1 (by norm_num [ValidParams]),
   (c1_samples_per_flow_cell _).2.1 (by norm_num [effective_yield_fraction]),
   (c1_samples_per_flow_cell _).2.2 (by norm_num)⟩

/-- C10: for every calculator satisfying the constructor's guards the
effective yield fraction is strictly positive, every solver computes its
closed formula (the 0-returning early branches are unreachable), the
division-guarded variants succeed (no division by zero), and each solver
returns 0 exactly when `output_bp = 0` and a strictly positive value
otherwise. -/
theorem c10_solvers_positive (c : CoverageCalculator) (h : ValidParams c) :
    0 < effective_yield_fraction c ∧
    calc_samples_per_flow_cell c =
      c.output_bp / ((c.region_size_bp : ℚ) * c.depth / effective_yield_fraction c) ∧
    calc_depth c =
      c.output_bp / c.samples * effective_yield_fraction c / (c.region_size_bp : ℚ) ∧
    calc_genome_size c =
      c.output_bp / c.samples * effective_yield_fraction c / c.depth ∧
    calc_samples_per_flow_cell? c = some (calc_samples_per_flow_cell c) ∧
    calc_depth? c = some (calc_depth c) ∧
    calc_genome_size? c = some (calc_genome_size c) ∧
    (calc_samples_per_flow_cell c = 0 ↔ c.output_bp = 0) ∧
    (0 < calc_samples_per_flow_cell c ↔ 0 < c.output_bp) ∧
    (calc_depth c = 0 ↔ c.output_bp = 0) ∧
    (0 < calc_depth c ↔ 0 < c.output_bp) ∧
    (calc_genome_size c = 0 ↔ c.output_bp = 0) ∧
    (0 < calc_genome_size c ↔ 0 < c.output_bp) := by
  have heff := (effective_yield_fraction_pos c h).2
  have hrq : (0 : ℚ) < (c.region_size_bp : ℚ) := by exact_mod_cast h.1
  have hd := h.2.1
  have hs := h.2.2.1
  have hT : (0 : ℚ) < (c.region_size_bp : ℚ) * c.depth / effective_yield_fraction c :=
    div_pos (mul_pos hrq hd) heff
  have hsamp : calc_samples_per_flow_cell c =
      c.output_bp * ((c.region_size_bp : ℚ) * c.depth / effective_yield_fraction c)⁻¹ := by
    rw [calc_samples_formula c h, div_eq_mul_inv]
  have hdep : calc_depth c =
      c.output_bp * (effective_yield_fraction c / (c.samples * (c.region_size_bp : ℚ))) := by
    rw [calc_depth_formula c h]; ring
  have hgen : calc_genome_size c =
      c.output_bp * (effective_yield_fraction c / (c.samples * c.depth)) := by
    rw [calc_genome_size_formula c h]; ring
  have hk1 := mul_pos_factor_char c.output_bp _ (inv_pos.mpr hT)
  have hk2 := mul_pos_factor_char c.output_bp _
    (div_pos heff (mul_pos hs hrq))
  have hk3 := mul_pos_factor_char c.output_bp _
    (div_pos heff (mul_pos hs hd))
  exact ⟨heff, calc_samples_formula c h, calc_depth_formula c h,
    calc_genome_size_formula c h, calc_samples_checked c h,
    calc_depth_checked c h, calc_genome_size_checked c h,
    by rw [hsamp]; exact hk1.1, by rw [hsamp]; exact hk1.2,
    by rw [hdep]; exact hk2.1, by rw [hdep]; exact hk2.2,
    by rw [hgen]; exact hk3.1, by rw [hgen]; exact hk3.2⟩

/-- Witness for C10 at a concrete valid calculator with positive output. -/
theorem c10_solvers_positive_witness :
    0 < effective_yield_fraction ⟨100, 10, 2, 3000, 0, 100⟩ ∧
    calc_depth? ⟨100, 10, 2, 3000, 0, 100⟩ =
      some (calc_depth ⟨100, 10, 2, 3000, 0, 100⟩) ∧
    0 < calc_genome_size ⟨100, 10, 2, 3000, 0, 100⟩ :=
  ⟨(c10_solvers_positive _ (by norm_num [ValidParams])).1,
   (c10_solvers_positive _ (by norm_num [ValidParams])).2.2.2.2.2.1,
   (c10_solvers_positive _ (by norm_num [ValidParams])).2.2.2.2.2.2.2.2.2.2.2.2.mpr
     (by norm_num)⟩

/-- C8 (amended): the samples-then-depth round trip reproduces the original
depth exactly for every validly constructed parameter set with strictly
positive `output_bp` (so that the solved sample count is nonzero). -/
theorem c8_round_trip_amended (c : CoverageCalculator) (h : ValidParams c)
    (ho : 0 < c.output_bp) :
    calc_depth { c with samples := calc_samples_per_flow_cell c } = c.depth := by
  have heff := (effective_yield_fraction_pos c h).2
  have hrq : (0 : ℚ) < (c.region_size_bp : ℚ) := by exact_mod_cast h.1
  have hd := h.2.1
  have hT : (0 : ℚ) < (c.region_size_bp : ℚ) * c.depth / effective_yield_fraction c :=
    div_pos (mul_pos hrq hd) heff
  have hSeq := calc_samples_formula c h
  have hS : 0 < calc_samples_per_flow_cell c := by
    rw [hSeq]; exact div_pos ho hT
  have hguard : ¬(({ c with samples := calc_samples_per_flow_cell c} : CoverageCalculator).samples = 0 ∨
      ({ c with samples := calc_samples_per_flow_cell c} : CoverageCalculator).region_size_bp = 0) := by
    push_neg
    exact ⟨ne_of_gt hS, ne_of_gt h.1⟩
  unfold calc_depth
  rw [if_neg hguard]
  show c.output_bp / calc_samples_per_flow_cell c * effective_yield_fraction c /
      (c.region_size_bp : ℚ) = c.depth
  rw [hSeq]
  field_simp
  ring

/-- Witness for C8 (amended) at a concrete valid calculator. -/
theorem c8_round_trip_amended_witness :
    calc_depth
      { region_size_bp := 100, depth := 10,
        samples := calc_samples_per_flow_cell ⟨100, 10, 2, 3000, 0, 100⟩,
        output_bp := 3000, duplication_pct := 0, on_target_pct := 100 } = 10 :=
  c8_round_trip_amended ⟨100, 10, 2, 3000, 0, 100⟩
    (by norm_num [ValidParams]) (by norm_num)

/-- Counterexample to C8 as stated: `output_bp = 0` is accepted by the
constructor, but then the solved sample count is 0 and the depth re-solve
returns 0, not the original depth 1. -/
theorem c8_round_trip_counterexample :
    ValidParams ⟨1, 1, 1, 0, 0, 100⟩ ∧
    calc_depth
      { region_size_bp := 1, depth := 1,
        samples := calc_samples_per_flow_cell ⟨1, 1, 1, 0, 0, 100⟩,
        output_bp := 0, duplication_pct := 0, on_target_pct := 100 } = 0 ∧
    (⟨1, 1, 1, 0, 0, 100⟩ : CoverageCalculator).depth = 1 := by
  refine ⟨by norm_num [ValidParams], ?_, rfl⟩
  norm_num [calc_depth, calc_samples_per_flow_cell, effective_yield_fraction]

/-- Counterexample to C9 as stated: the claimed composition passes the
whole-genome size `fraction_to_genome(G_target, f)` as the *target* argument
of `genome_to_fraction` while the known genome is the same value, so the
result is 100 for every fraction at or above the 0.01 floor; at
`G_target = 100`, `f = 50` it returns 100, not ≈ 50. -/
theorem c9_ddrad_round_trip_counterexample :
    genome_to_fraction (fraction_to_genome 100 50) (100 / (50 / 100)) = 100 ∧
    (100 : ℚ) ≠ 50 := by
  constructor
  · norm_num [genome_to_fraction, fraction_to_genome, max_def, min_def]
  · norm_num

/-- C9 (amended): composing the other way round — the solved target-region
size as the numerator and the mode-A genome size as the known genome — the
ddRAD round trip returns the capture fraction floored at 0.01 percent:
`genome_to_fraction(G_target, fraction_to_genome(G_target, f)) = max(0.01, f)`
for every `G_target > 0` and `f ∈ (0, 100]`; in particular it reproduces `f`
exactly for `f ∈ [0.01, 100]`. -/
theorem c9_ddrad_round_trip_amended (g f : ℚ) (hg : 0 < g) (hf0 : 0 < f)
    (hf : f ≤ 100) :
    genome_to_fraction g (fraction_to_genome g f) = max (1 / 100) f := by
  rcases le_total f (1 / 100) with hle | hle
  · have hmax : max ((1 : ℚ) / 10000) (f / 100) = 1 / 10000 :=
      max_eq_left (by linarith)
    have hfg : fraction_to_genome g f = 10000 * g := by
      unfold fraction_to_genome
      rw [hmax]
      field_simp
      ring
    have hpos : (0 : ℚ) < 10000 * g := by positivity
    have hval : g / (10000 * g) * 100 = 1 / 100 := by
      field_simp
      ring
    unfold genome_to_fraction
    rw [hfg, if_pos hpos, hval,
      min_eq_right (by norm_num : (1 : ℚ) / 100 ≤ 100),
      max_eq_right (by norm_num : (0 : ℚ) ≤ 1 / 100),
      max_eq_left hle]
  · have hmax : max ((1 : ℚ) / 10000) (f / 100) = f / 100 :=
      max_eq_right (by linarith)
    have hfg : fraction_to_genome g f = g * 100 / f := by
      unfold fraction_to_genome
      rw [hmax, div_div_eq_mul_div]
    have hpos : (0 : ℚ) < g * 100 / f := by positivity
    have hval : g / (g * 100 / f) * 100 = f := by
      field_simp
      ring
    unfold genome_to_fraction
    rw [hfg, if_pos hpos, hval, min_eq_right hf,
      max_eq_right (le_of_lt hf0), max_eq_right hle]

/-- Witness for C9 (amended) at `G_target = 100`, `f = 50`. -/
theorem c9_ddrad_round_trip_amended_witness :
    genome_to_fraction 100 (fraction_to_genome 100 50) = max (1 / 100) 50 :=
  c9_ddrad_round_trip_amended 100 50 (by norm_num) (by norm_num) (by norm_num)

/-- The O0 and O1 fields of the stage chain, unfolded. -/
lemma compute_effective_output_o1 (b q : ℝ) (afm : Bool) (fs rl : Option ℤ)
    (ac agb : Bool) (gb : ℝ) (r : ℤ) (d t : ℝ) :
    (compute_effective_output b q afm fs rl ac agb gb r d t).o0 = max 0 b ∧
    (compute_effective_output b q afm fs rl ac agb gb r d t).o1 =
      max 0 b * (1 - max 0 q / 100) := ⟨rfl, rfl⟩

/-- The O2-stage fields of the chain are the components of `o2_stage` applied
to O1. -/
lemma compute_effective_output_o2 (b q : ℝ) (afm : Bool) (fs rl : Option ℤ)
    (ac agb : Bool) (gb : ℝ) (r : ℤ) (d t : ℝ) :
    (compute_effective_output b q afm fs rl ac agb gb r d t).overlap_applies =
      (o2_stage (max 0 b * (1 - max 0 q / 100)) afm fs rl).1 ∧
    (compute_effective_output b q afm fs rl ac agb gb r d t).redundancy =
      (o2_stage (max 0 b * (1 - max 0 q / 100)) afm fs rl).2.1 ∧
    (compute_effective_output b q afm fs rl ac agb gb r d t).o2 =
      (o2_stage (max 0 b * (1 - max 0 q / 100)) afm fs rl).2.2 := ⟨rfl, rfl, rfl⟩

/-- The O3 field of the chain, unfolded. -/
lemma compute_effective_output_o3 (b q : ℝ) (afm : Bool) (fs rl : Option ℤ)
    (ac agb : Bool) (gb : ℝ) (r : ℤ) (d t : ℝ) :
    (compute_effective_output b q afm fs rl ac agb gb r d t).o3 =
      (if ac then ((max 1 r : ℤ) : ℝ) *
        (1 - Real.exp (-(compute_effective_output b q afm fs rl ac agb gb r d t).o2 /
          ((max 1 r : ℤ) : ℝ)))
      else (compute_effective_output b q afm fs rl ac agb gb r d t).o2) := rfl

/-- The effective-yield-fraction field of the chain, unfolded. -/
lemma compute_effective_output_eff (b q : ℝ) (afm : Bool) (fs rl : Option ℤ)
    (ac agb : Bool) (gb : ℝ) (r : ℤ) (d t : ℝ) :
    (compute_effective_output b q afm fs rl ac agb gb r d t).eff_fraction =
      max 0 ((1 - max 0 d / 100) * (max 0 t / 100)) := rfl

/-- The overlap correction triggers exactly when the model is on, both sizes
are present and positive, and paired reads out-run the fragment. -/
lemma o2_stage_true_iff (o1 : ℝ) (afm : Bool) (fs rl : Option ℤ) :
    (o2_stage o1 afm fs rl).1 = true ↔
      (afm = true ∧ ∃ f L, fs = some f ∧ rl = some L ∧
        0 < f ∧ 0 < L ∧ f < 2 * L) := by
  cases afm <;> rcases fs with _ | f <;> rcases rl with _ | L
  · simp [o2_stage]
  · simp [o2_stage]
  · simp [o2_stage]
  · simp [o2_stage]
  · simp [o2_stage]
  · simp [o2_stage]
  · simp [o2_stage]
  · simp only [o2_stage]
    split_ifs with h1 h2
    · simp
      omega
    · simp
      omega
    · simp
      omega

/-- When the overlap correction triggers, redundancy and O2 take the
paired-end overlap form. -/
lemma o2_stage_true_spec (o1 : ℝ) (f L : ℤ) (hf : 0 < f) (hL : 0 < L)
    (hfl : f < 2 * L) :
    o2_stage o1 true (some f) (some L) =
      (true, ((2 * L - f : ℤ) : ℝ) / ((2 * L : ℤ) : ℝ),
        o1 * (1 - ((2 * L - f : ℤ) : ℝ) / ((2 * L : ℤ) : ℝ))) := by
  simp only [o2_stage]
  rw [if_pos ⟨ne_of_gt hf, ne_of_gt hL, hf, hL⟩, if_pos (by omega : 2 * L > f)]

/-- When the overlap correction does not trigger, O2 = O1 exactly and the
redundancy is 0. -/
lemma o2_stage_false_spec (o1 : ℝ) (afm : Bool) (fs rl : Option ℤ)
    (h : (o2_stage o1 afm fs rl).1 = false) :
    (o2_stage o1 afm fs rl).2.1 = 0 ∧ (o2_stage o1 afm fs rl).2.2 = o1 := by
  cases afm <;> rcases fs with _ | f <;> rcases rl with _ | L
  · exact ⟨rfl, rfl⟩
  · exact ⟨rfl, rfl⟩
  · exact ⟨rfl, rfl⟩
  · exact ⟨rfl, rfl⟩
  · exact ⟨rfl, rfl⟩
  · exact ⟨rfl, rfl⟩
  · exact ⟨rfl, rfl⟩
  · simp only [o2_stage] at h ⊢
    split_ifs at h ⊢ with h1 h2
    · exact ⟨rfl, rfl⟩
    · exact ⟨rfl, rfl⟩

/-- O2 stays within [0, O1] whenever O1 is nonnegative. -/
lemma o2_stage_le (o1 : ℝ) (afm : Bool) (fs rl : Option ℤ) (h0 : 0 ≤ o1) :
    0 ≤ (o2_stage o1 afm fs rl).2.2 ∧ (o2_stage o1 afm fs rl).2.2 ≤ o1 := by
  cases afm <;> rcases fs with _ | f <;> rcases rl with _ | L <;>
    simp only [o2_stage] <;> try exact ⟨h0, le_refl o1⟩
  split_ifs with h1 h2
  · have h2L : (0 : ℝ) < ((2 * L : ℤ) : ℝ) := by
      exact_mod_cast (by omega : (0 : ℤ) < 2 * L)
    have hub : ((2 * L - f : ℤ) : ℝ) ≤ ((2 * L : ℤ) : ℝ) := by
      exact_mod_cast (by omega : (2 * L - f : ℤ) ≤ 2 * L)
    have hlb : (0 : ℝ) ≤ ((2 * L - f : ℤ) : ℝ) := by
      exact_mod_cast (by omega : (0 : ℤ) ≤ 2 * L - f)
    have hr0 : 0 ≤ ((2 * L - f : ℤ) : ℝ) / ((2 * L : ℤ) : ℝ) :=
      div_nonneg hlb h2L.le
    have hr1 : ((2 * L - f : ℤ) : ℝ) / ((2 * L : ℤ) : ℝ) ≤ 1 :=
      (div_le_one h2L).mpr hub
    constructor
    · exact mul_nonneg h0 (by linarith)
    · have hm := mul_le_mul_of_nonneg_left
        (by linarith : 1 - ((2 * L - f : ℤ) : ℝ) / ((2 * L : ℤ) : ℝ) ≤ 1) h0
      simpa using hm
  · exact ⟨h0, le_refl o1⟩
  · exact ⟨h0, le_refl o1⟩

/-- C2: the fragment-overlap correction of `compute_effective_output`
triggers exactly when the model toggle is on, `fragment_size` and
`read_length` are both present and positive, and
`2 × read_length > fragment_size`; when triggered
`redundancy = (2L − F)/(2L)` and `O2 = O1 × (1 − redundancy)`; when it does
not trigger, `O2 = O1` exactly, `overlap_applies = false`, and
`redundancy = 0`. -/
theorem c2_fragment_overlap (b q : ℝ) (afm : Bool) (fs rl : Option ℤ)
    (ac agb : Bool) (gb : ℝ) (r : ℤ) (d t : ℝ) :
    ((compute_effective_output b q afm fs rl ac agb gb r d t).overlap_applies = true ↔
      (afm = true ∧ ∃ f L, fs = some f ∧ rl = some L ∧
        0 < f ∧ 0 < L ∧ f < 2 * L)) ∧
    (∀ f L, fs = some f → rl = some L →
      (compute_effective_output b q afm fs rl ac agb gb r d t).overlap_applies = true →
      (compute_effective_output b q afm fs rl ac agb gb r d t).redundancy =
        ((2 * L - f : ℤ) : ℝ) / ((2 * L : ℤ) : ℝ) ∧
      (compute_effective_output b q afm fs rl ac agb gb r d t).o2 =
        (compute_effective_output b q afm fs rl ac agb gb r d t).o1 *
          (1 - (compute_effective_output b q afm fs rl ac agb gb r d t).redundancy)) ∧
    ((compute_effective_output b q afm fs rl ac agb gb r d t).overlap_applies = false →
      (compute_effective_output b q afm fs rl ac agb gb r d t).o2 =
        (compute_effective_output b q afm fs rl ac agb gb r d t).o1 ∧
      (compute_effective_output b q afm fs rl ac agb gb r d t).redundancy = 0) := by
  obtain ⟨eo, er, e2⟩ := compute_effective_output_o2 b q afm fs rl ac agb gb r d t
  have e1 := (compute_effective_output_o1 b q afm fs rl ac agb gb r d t).2
  rw [eo, er, e2, e1]
  refine ⟨o2_stage_true_iff _ afm fs rl, ?_, ?_⟩
  · intro f L hfs hrl hov
    subst hfs
    subst hrl
    cases afm with
    | false => exact absurd hov (by simp [o2_stage])
    | true =>
      simp only [o2_stage] at hov
      by_cases h1 : f ≠ 0 ∧ L ≠ 0 ∧ 0 < f ∧ 0 < L
      · by_cases h2 : 2 * L > f
        · have hspec := o2_stage_true_spec (max 0 b * (1 - max 0 q / 100)) f L
            h1.2.2.1 h1.2.2.2 (by omega)
          rw [hspec]
          exact ⟨rfl, rfl⟩
        · rw [if_pos h1, if_neg h2] at hov
          simp at hov
      · rw [if_neg h1] at hov
        simp at hov
  · intro hov
    have hns := o2_stage_false_spec (max 0 b * (1 - max 0 q / 100)) afm fs rl hov
    exact ⟨hns.2, hns.1⟩

/-- Witness for C2 at read length 150 and fragment size 200: the overlap
triggers and the redundancy is (300 − 200)/300. -/
theorem c2_fragment_overlap_witness :
    (compute_effective_output 100 0 true (some 200) (some 150)
      false false 0 1 0 100).overlap_applies = true ∧
    (compute_effective_output 100 0 true (some 200) (some 150)
      false false 0 1 0 100).redundancy =
      ((2 * 150 - 200 : ℤ) : ℝ) / ((2 * 150 : ℤ) : ℝ) := by
  have h := c2_fragment_overlap 100 0 true (some 200) (some 150) false false 0 1 0 100
  have hov : (compute_effective_output 100 0 true (some 200) (some 150)
      false false 0 1 0 100).overlap_applies = true :=
    h.1.mpr ⟨rfl, 200, 150, rfl, rfl, by norm_num, by norm_num, by norm_num⟩
  exact ⟨hov, (h.2.1 200 150 rfl rfl hov).1⟩

/-- C3: with the complexity model enabled,
`O3 = G × (1 − e^(−O2/G))` where G is the region size clamped to a minimum
of 1; with it disabled, `O3 = O2` unchanged; and at region size 1000 with
O2 = 2000 the enabled value is `1000 × (1 − e^−2) ≈ 864.66` (strictly
between 864.66 and 864.67). -/
theorem c3_library_complexity (b q : ℝ) (afm : Bool) (fs rl : Option ℤ)
    (agb : Bool) (gb : ℝ) (r : ℤ) (d t : ℝ) :
    ((compute_effective_output b q afm fs rl true agb gb r d t).o3 =
      ((max 1 r : ℤ) : ℝ) *
        (1 - Real.exp
          (-(compute_effective_output b q afm fs rl true agb gb r d t).o2 /
            ((max 1 r : ℤ) : ℝ))) ∧
     (compute_effective_output b q afm fs rl false agb gb r d t).o3 =
      (compute_effective_output b q afm fs rl false agb gb r d t).o2) ∧
    (864.66 < (compute_effective_output 2000 0 false none none
        true false 0 1000 0 100).o3 ∧
     (compute_effective_output 2000 0 false none none
        true false 0 1000 0 100).o3 < 864.67) := by
  refine ⟨⟨?_, ?_⟩, ?_⟩
  · simpa using compute_effective_output_o3 b q afm fs rl true agb gb r d t
  · simpa using compute_effective_output_o3 b q afm fs rl false agb gb r d t
  · have ho2 : (compute_effective_output 2000 0 false none none
        true false 0 1000 0 100).o2 = 2000 := by
      rw [(compute_effective_output_o2 2000 0 false none none
        true false 0 1000 0 100).2.2]
      norm_num [o2_stage, max_def]
    have ho3 : (compute_effective_output 2000 0 false none none
        true false 0 1000 0 100).o3 = 1000 * (1 - Real.exp (-2)) := by
      rw [compute_effective_output_o3, ho2]
      norm_num [max_def]
    have he2 : Real.exp (-2 : ℝ) = (Real.exp 1 * Real.exp 1)⁻¹ := by
      rw [Real.exp_neg]
      congr 1
      rw [← Real.exp_add]
      norm_num
    have hE1 : (2.7182818283 : ℝ) < Real.exp 1 := Real.exp_one_gt_d9
    have hE2 : Real.exp 1 < (2.7182818286 : ℝ) := Real.exp_one_lt_d9
    have hEpos : (0 : ℝ) < Real.exp 1 := Real.exp_pos 1
    have hsq1 : (7.389056098 : ℝ) < Real.exp 1 * Real.exp 1 := by nlinarith
    have hsq2 : Real.exp 1 * Real.exp 1 < (7.3890561 : ℝ) := by nlinarith
    have hprodpos : (0 : ℝ) < Real.exp 1 * Real.exp 1 := mul_pos hEpos hEpos
    have hinv1 : (Real.exp 1 * Real.exp 1)⁻¹ < (0.13534 : ℝ) := by
      rw [inv_lt_comm₀ (by positivity) (by norm_num)]
      calc (0.13534 : ℝ)⁻¹ < 7.389056098 := by norm_num
        _ < Real.exp 1 * Real.exp 1 := hsq1
    have hinv2 : (0.135335 : ℝ) < (Real.exp 1 * Real.exp 1)⁻¹ := by
      rw [lt_inv_comm₀ (by norm_num) hprodpos]
      calc Real.exp 1 * Real.exp 1 < 7.3890561 := hsq2
        _ < (0.135335 : ℝ)⁻¹ := by norm_num
    constructor
    · rw [ho3, he2]
      linarith
    · rw [ho3, he2]
      linarith

/-- Counterexample to C4 as stated: `on_target_pct` is clamped only from
below, so at on_target_pct = 200 (duplication 0) the effective yield
fraction is 2, outside [0, 1]. -/
theorem c4_eff_fraction_counterexample :
    (compute_effective_output 0 0 false none none false false 0 1 0 200).eff_fraction
      = 2 ∧
    ¬(compute_effective_output 0 0 false none none false false 0 1 0 200).eff_fraction
      ≤ 1 := by
  rw [compute_effective_output_eff]
  norm_num [max_def]

/-- C4 (amended): `eff_fraction` is monotonically non-increasing in
duplication_pct, monotonically non-decreasing in on_target_pct, and always
at least 0; it is at most 1 whenever `on_target_pct ≤ 100` (the source
clamps the percentages only from below, so an on-target percentage above
100 pushes the fraction above 1). -/
theorem c4_eff_fraction_amended (b q : ℝ) (afm : Bool) (fs rl : Option ℤ)
    (ac agb : Bool) (gb : ℝ) (r : ℤ) (d d' t t' : ℝ)
    (hd : d ≤ d') (ht : t ≤ t') :
    (compute_effective_output b q afm fs rl ac agb gb r d' t).eff_fraction ≤
      (compute_effective_output b q afm fs rl ac agb gb r d t).eff_fraction ∧
    (compute_effective_output b q afm fs rl ac agb gb r d t).eff_fraction ≤
      (compute_effective_output b q afm fs rl ac agb gb r d t').eff_fraction ∧
    0 ≤ (compute_effective_output b q afm fs rl ac agb gb r d t).eff_fraction ∧
    (t ≤ 100 →
      (compute_effective_output b q afm fs rl ac agb gb r d t).eff_fraction ≤ 1) := by
  simp only [compute_effective_output_eff]
  refine ⟨?_, ?_, le_max_left _ _, ?_⟩
  · apply max_le_max le_rfl
    apply mul_le_mul_of_nonneg_right
    · have hmono : max 0 d ≤ max 0 d' := max_le_max le_rfl hd
      linarith
    · positivity
  · rcases le_or_lt 0 (1 - max 0 d / 100) with hpos | hneg
    · apply max_le_max le_rfl
      apply mul_le_mul_of_nonneg_left _ hpos
      have hmono : max 0 t ≤ max 0 t' := max_le_max le_rfl ht
      linarith
    · have h1 : (1 - max 0 d / 100) * (max 0 t / 100) ≤ 0 :=
        mul_nonpos_iff.mpr (Or.inr ⟨hneg.le, by positivity⟩)
      rw [max_eq_left h1]
      exact le_max_left _ _
  · intro h100
    apply max_le (by norm_num)
    have hd0 : (0 : ℝ) ≤ max 0 d := le_max_left _ _
    have ht1 : max 0 t / 100 ≤ 1 := by
      have hmt : max 0 t ≤ 100 := max_le (by norm_num) h100
      linarith
    have ht0 : (0 : ℝ) ≤ max 0 t / 100 := by positivity
    have ha1 : 1 - max 0 d / 100 ≤ 1 := by linarith
    rcases le_or_lt (1 - max 0 d / 100) 0 with hneg | hpos
    · calc (1 - max 0 d / 100) * (max 0 t / 100) ≤ 0 :=
          mul_nonpos_iff.mpr (Or.inr ⟨hneg, ht0⟩)
        _ ≤ 1 := by norm_num
    · calc (1 - max 0 d / 100) * (max 0 t / 100) ≤ 1 * 1 :=
          mul_le_mul ha1 ht1 ht0 (by norm_num)
        _ = 1 := by norm_num

/-- Witness for C4 (amended): raising duplication from 0 to 10 does not
raise the fraction, and at on-target 50 ≤ 100 the fraction is within 1. -/
theorem c4_eff_fraction_amended_witness :
    (compute_effective_output 0 0 false none none false false 0 1 10 50).eff_fraction ≤
      (compute_effective_output 0 0 false none none false false 0 1 0 50).eff_fraction ∧
    (compute_effective_output 0 0 false none none false false 0 1 0 50).eff_fraction ≤ 1 := by
  have h := c4_eff_fraction_amended 0 0 false none none false false 0 1 0 10 50 80
    (by norm_num) (by norm_num)
  exact ⟨h.1, h.2.2.2 (by norm_num)⟩

/-- The guarded O2 stage always succeeds and agrees with the unguarded one:
its only division is by `2 * read_length`, which is nonzero whenever it is
evaluated. -/
lemma o2_stage_checked (o1 : ℝ) (afm : Bool) (fs rl : Option ℤ) :
    o2_stage? o1 afm fs rl = some (o2_stage o1 afm fs rl) := by
  cases afm <;> rcases fs with _ | f <;> rcases rl with _ | L
  · rfl
  · rfl
  · rfl
  · rfl
  · rfl
  · rfl
  · rfl
  · simp only [o2_stage?, o2_stage]
    split_ifs with h1 h2
    · have hL : ((2 * L : ℤ) : ℝ) ≠ 0 := by
        exact_mod_cast (by omega : (2 * L : ℤ) ≠ 0)
      simp [rdiv?, hL, h1.2.1]
    · rfl
    · rfl

/-- C5: the stage chain never fails — with every division of the source
guarded as Python's `/` is, `compute_effective_output` succeeds on every
input (all out-of-range inputs are clamped, never rejected), returning
exactly the total-function snapshot. -/
theorem c5_no_failure (b q : ℝ) (afm : Bool) (fs rl : Option ℤ)
    (ac agb : Bool) (gb : ℝ) (r : ℤ) (d t : ℝ) :
    compute_effective_output? b q afm fs rl ac agb gb r d t =
      some (compute_effective_output b q afm fs rl ac agb gb r d t) := by
  have h100 : (100 : ℝ) ≠ 0 := by norm_num
  have hr1 : (1 : ℤ) ≤ max 1 r := le_max_left 1 r
  have hrs : ((max 1 r : ℤ) : ℝ) ≠ 0 := by
    exact_mod_cast (by omega : (max 1 r : ℤ) ≠ 0)
  have hrs2 : (1 : ℝ) ⊔ (r : ℝ) ≠ 0 :=
    ne_of_gt (lt_of_lt_of_le zero_lt_one (le_max_left 1 _))
  cases ac <;> cases agb <;>
    simp [compute_effective_output?, compute_effective_output, rdiv?,
      o2_stage_checked, h100, hrs, hrs2]

/-- Counterexample to C6 as stated: with filtering loss 200% (clamped only
from below) O1 is negative, so the overlap correction *raises* the total
(`o1 < o2` although the overlap applies), and with the complexity model on,
`o3` is negative as well. -/
theorem c6_invariants_counterexample :
    ((compute_effective_output 100 200 true (some 200) (some 150)
        false false 0 1 0 100).overlap_applies = true ∧
      (compute_effective_output 100 200 true (some 200) (some 150)
        false false 0 1 0 100).o1 <
      (compute_effective_output 100 200 true (some 200) (some 150)
        false false 0 1 0 100).o2) ∧
    (compute_effective_output 100 200 false none none
      true false 0 1 0 100).o3 < 0 := by
  have hspec := o2_stage_true_spec ((max 0 (100 : ℝ)) * (1 - max 0 (200 : ℝ) / 100))
    200 150 (by norm_num) (by norm_num) (by norm_num)
  refine ⟨⟨?_, ?_⟩, ?_⟩
  · rw [(compute_effective_output_o2 100 200 true (some 200) (some 150)
      false false 0 1 0 100).1, hspec]
  · rw [(compute_effective_output_o2 100 200 true (some 200) (some 150)
      false false 0 1 0 100).2.2,
      (compute_effective_output_o1 100 200 true (some 200) (some 150)
      false false 0 1 0 100).2, hspec]
    norm_num [max_def]
  · have ho2 : (compute_effective_output 100 200 false none none
        true false 0 1 0 100).o2 = -100 := by
      rw [(compute_effective_output_o2 100 200 false none none
        true false 0 1 0 100).2.2]
      norm_num [o2_stage, max_def]
    rw [compute_effective_output_o3, ho2]
    norm_num [max_def]

/-- C6 (amended): whenever the read-filter loss percentage lies in [0,100]
— where the claimed invariants were stated from — every snapshot satisfies
`o0 ≥ o1 ≥ 0`, `o2 ≤ o1` whenever the overlap correction applies, and
`0 ≤ o3`.  (Without that bound, O1 goes negative and both the overlap and
complexity conclusions fail, as the counterexample shows.) -/
theorem c6_invariants_amended (b q : ℝ) (hq0 : 0 ≤ q) (hq1 : q ≤ 100)
    (afm : Bool) (fs rl : Option ℤ) (ac agb : Bool) (gb : ℝ) (r : ℤ)
    (d t : ℝ) :
    ((compute_effective_output b q afm fs rl ac agb gb r d t).o1 ≤
      (compute_effective_output b q afm fs rl ac agb gb r d t).o0 ∧
     0 ≤ (compute_effective_output b q afm fs rl ac agb gb r d t).o1) ∧
    ((compute_effective_output b q afm fs rl ac agb gb r d t).overlap_applies = true →
      (compute_effective_output b q afm fs rl ac agb gb r d t).o2 ≤
        (compute_effective_output b q afm fs rl ac agb gb r d t).o1) ∧
    0 ≤ (compute_effective_output b q afm fs rl ac agb gb r d t).o3 := by
  obtain ⟨e0, e1⟩ := compute_effective_output_o1 b q afm fs rl ac agb gb r d t
  obtain ⟨eo, er, e2⟩ := compute_effective_output_o2 b q afm fs rl ac agb gb r d t
  have hmq : max 0 q = q := max_eq_right hq0
  have hb0 : (0 : ℝ) ≤ max 0 b := le_max_left _ _
  have ho1nn : 0 ≤ max 0 b * (1 - max 0 q / 100) := by
    rw [hmq]
    apply mul_nonneg hb0
    linarith
  have ho1le : max 0 b * (1 - max 0 q / 100) ≤ max 0 b := by
    rw [hmq]
    nlinarith [hb0]
  have hbounds := o2_stage_le (max 0 b * (1 - max 0 q / 100)) afm fs rl ho1nn
  refine ⟨⟨?_, ?_⟩, ?_, ?_⟩
  · rw [e1, e0]
    exact ho1le
  · rw [e1]
    exact ho1nn
  · intro _
    rw [e2, e1]
    exact hbounds.2
  · rw [compute_effective_output_o3, e2]
    cases ac with
    | false =>
      simpa using hbounds.1
    | true =>
      simp only [if_true]
      have h1le : (1 : ℤ) ≤ max 1 r := le_max_left _ _
      have hG1 : (1 : ℝ) ≤ ((max 1 r : ℤ) : ℝ) := by exact_mod_cast h1le
      have hG : (0 : ℝ) < ((max 1 r : ℤ) : ℝ) := lt_of_lt_of_le zero_lt_one hG1
      have hdiv : 0 ≤ (o2_stage (max 0 b * (1 - max 0 q / 100)) afm fs rl).2.2 /
          ((max 1 r : ℤ) : ℝ) := div_nonneg hbounds.1 hG.le
      have hneg : -(o2_stage (max 0 b * (1 - max 0 q / 100)) afm fs rl).2.2 /
          ((max 1 r : ℤ) : ℝ) ≤ 0 := by
        rw [neg_div]
        linarith
      have hexp : Real.exp (-(o2_stage (max 0 b * (1 - max 0 q / 100)) afm fs rl).2.2 /
          ((max 1 r : ℤ) : ℝ)) ≤ 1 := Real.exp_le_one_iff.mpr hneg
      apply mul_nonneg hG.le
      linarith

/-- Witness for C6 (amended) at loss 10% with an applying overlap. -/
theorem c6_invariants_amended_witness :
    0 ≤ (compute_effective_output 100 10 true (some 200) (some 150)
      true false 0 1000 0 100).o3 ∧
    (compute_effective_output 100 10 true (some 200) (some 150)
      true false 0 1000 0 100).o2 ≤
    (compute_effective_output 100 10 true (some 200) (some 150)
      true false 0 1000 0 100).o1 := by
  have h := c6_invariants_amended 100 10 (by norm_num) (by norm_num)
    true (some 200) (some 150) true false 0 1000 0 100
  have hov : (compute_effective_output 100 10 true (some 200) (some 150)
      true false 0 1000 0 100).overlap_applies = true := by
    rw [(compute_effective_output_o2 100 10 true (some 200) (some 150)
      true false 0 1000 0 100).1]
    exact (o2_stage_true_iff _ true (some 200) (some 150)).mpr
      ⟨rfl, 200, 150, rfl, rfl, by norm_num, by norm_num, by norm_num⟩
  exact ⟨h.2.2, h.2.1 hov⟩
